import Mathlib

/-!
Shallow embedding of the llumnix dispatch scheduler
(`llumnix/global_scheduler/dispatch_scheduler.py`) and of
`GlobalSchedulerConfig` (`llumnix/internal_config.py`).

Python dicts are modelled as insertion-ordered association lists
(`List (String × α)`); Python sets as lists without duplicates where the
operations preserve that property.  Python set iteration order is
arbitrary; where the source draws an arbitrary element
(`next(iter(...))` in the backfill of `remove_instance`) the model
deterministically takes the first element in our list order — every
theorem below that depends on the drawn element either forces a
singleton candidate set or holds for any choice.  Exceptions raised by
the source (`KeyError` from `set.remove` and from `dict[k] += 1`,
`StopIteration` from `next(iter(...))` on an empty set,
`ValueError`/`IndexError`/`ZeroDivisionError` from the policy bodies on
empty collections) become explicit error results; state mutated in
place before the raise is kept, mirroring Python's in-place mutation.
-/

/-- Record of per-instance load data (`llumnix.instance_info.InstanceInfo`),
restricted to the fields the dispatch scheduler reads.  The float field
`instance_load_dispatch_scale` is modelled as `Int`: the scheduler only
compares these values, never does arithmetic on them. -/
structure InstanceInfo where
  instance_id : String
  num_waiting_requests : Nat
  instance_load_dispatch_scale : Int
deriving DecidableEq, Repr

/-- The five registered dispatch policies (`DispatchPolicyFactory._POLICY_REGISTRY`). -/
inductive PolicyKind where
  | flood
  | balanced
  | load
  | queue
  | rr
deriving DecidableEq, Repr

/-- Errors the scheduler operations can raise.  The source raises Python
builtins: `instanceNotFound` is the `KeyError` from `set.remove` on an
unknown id; `stopIteration` is the `StopIteration` from `next(iter(...))`
on an empty backfill candidate set; `noAvailableInstance` stands for the
`ValueError`/`IndexError`/`ZeroDivisionError` a policy body raises on an
empty counts map / sorted view; `keyError` is the `KeyError` from
`instance_num_requests[id] += 1` when `id` has no counter entry. -/
inductive SchedErr where
  | instanceNotFound
  | stopIteration
  | noAvailableInstance
  | keyError
deriving DecidableEq, Repr

instance : DecidableEq (Except SchedErr String) := fun x y =>
  match x, y with
  | Except.ok a, Except.ok b =>
    if h : a = b then isTrue (by rw [h])
    else isFalse (by intro hc; cases hc; exact h rfl)
  | Except.error a, Except.error b =>
    if h : a = b then isTrue (by rw [h])
    else isFalse (by intro hc; cases hc; exact h rfl)
  | Except.ok _, Except.error _ => isFalse (by intro hc; cases hc)
  | Except.error _, Except.ok _ => isFalse (by intro hc; cases hc)

/-- Add an element to a set modelled as a duplicate-free list (`set.add`). -/
def listAdd (l : List String) (x : String) : List String :=
  if x ∈ l then l else l ++ [x]

/-- Keys of an association list (dict keys, in insertion order). -/
def keysOf (l : List (String × Nat)) : List String :=
  l.map Prod.fst

/-- `dict[k]` lookup: value at the first occurrence of key `k`. -/
def lookupKey (l : List (String × Nat)) (k : String) : Option Nat :=
  match l with
  | [] => none
  | p :: t => if p.1 = k then some p.2 else lookupKey t k

/-- `dict[k] = v`: overwrite the entry in place if the key exists
(keeping its position, as Python dicts do), else append. -/
def setKey (l : List (String × Nat)) (k : String) (v : Nat) : List (String × Nat) :=
  match l with
  | [] => [(k, v)]
  | p :: t => if p.1 = k then (k, v) :: t else p :: setKey t k v

/-- `del dict[k]`: drop the first occurrence of key `k`. -/
def eraseKey (l : List (String × Nat)) (k : String) : List (String × Nat) :=
  match l with
  | [] => []
  | p :: t => if p.1 = k then t else p :: eraseKey t k

/-- Whether `needle` occurs as a contiguous sublist of `haystack`
(Python's `needle in haystack` on strings, over the char lists). -/
def containsSub (haystack needle : List Char) : Bool :=
  needle.isPrefixOf haystack ||
    match haystack with
    | [] => false
    | _ :: t => containsSub t needle

/-- The source's decode-only predicate: `"decode" in instance_id`
(substring test in `DispatchScheduler.add_instance`). -/
def is_decode_only (instance_id : String) : Bool :=
  containsSub instance_id.data "decode".data

/-- State of `DispatchScheduler`.  `prev_instance_idx` is the `RoundRobin`
policy object's cursor (`-1` at construction); for the other policies it
is never read.  `sorted_instance_infos` is initialised to `[]` standing
for the source's `None`: the source always recomputes it before any
read. -/
structure DispatchScheduler where
  dispatch_policy : PolicyKind
  num_instances : Nat
  instance_id_set : List String
  available_dispatch_instance_set : List String
  num_dispatch_instances : Int
  instance_info : List (String × InstanceInfo)
  sorted_instance_infos : List InstanceInfo
  num_requests : Nat
  instance_num_requests : List (String × Nat)
  prev_instance_idx : Int
deriving DecidableEq, Repr

/-- `DispatchScheduler.__init__`. -/
def DispatchScheduler.init (dispatch_policy : PolicyKind)
    (num_dispatch_instances : Int) : DispatchScheduler :=
  { dispatch_policy := dispatch_policy
    num_instances := 0
    instance_id_set := []
    available_dispatch_instance_set := []
    num_dispatch_instances := num_dispatch_instances
    instance_info := []
    sorted_instance_infos := []
    num_requests := 0
    instance_num_requests := []
    prev_instance_idx := -1 }

/-- `DispatchScheduler.add_instance`. -/
def DispatchScheduler.add_instance (s : DispatchScheduler)
    (instance_id : String) : DispatchScheduler :=
  let s := { s with instance_id_set := listAdd s.instance_id_set instance_id }
  let s := { s with num_instances := s.instance_id_set.length }
  if ¬ is_decode_only instance_id then
    if s.num_dispatch_instances ≤ 0 ∨ (s.num_dispatch_instances > 0 ∧
        (s.available_dispatch_instance_set.length : Int) < s.num_dispatch_instances) then
      { s with
        available_dispatch_instance_set :=
          listAdd s.available_dispatch_instance_set instance_id
        instance_num_requests := setKey s.instance_num_requests instance_id 0 }
    else s
  else s

/-- `DispatchScheduler.remove_instance`.  Returns the error raised (if
any) together with the state at that point (partial in-place mutations
included). -/
def DispatchScheduler.remove_instance (s : DispatchScheduler)
    (instance_id : String) : Option SchedErr × DispatchScheduler :=
  if instance_id ∈ s.instance_id_set then
    let s := { s with instance_id_set := s.instance_id_set.erase instance_id }
    let s := { s with num_instances := s.instance_id_set.length }
    -- source logs a non-fatal warning when the id has no counter entry
    let s := if instance_id ∈ keysOf s.instance_num_requests then
        { s with instance_num_requests := eraseKey s.instance_num_requests instance_id }
      else s
    if instance_id ∈ s.available_dispatch_instance_set then
      let s := { s with
        available_dispatch_instance_set :=
          s.available_dispatch_instance_set.erase instance_id }
      if (s.num_instances : Int) ≥ s.num_dispatch_instances then
        match (s.instance_id_set.filter
            (fun x => x ∉ s.available_dispatch_instance_set)).head? with
        | some free_instance_id =>
            (none, { s with
              available_dispatch_instance_set :=
                listAdd s.available_dispatch_instance_set free_instance_id })
        | none => (some SchedErr.stopIteration, s)
      else (none, s)
    else (none, s)
  else (some SchedErr.instanceNotFound, s)

/-- `DispatchScheduler.update_instance_infos`: wholesale replacement of
the snapshot. -/
def DispatchScheduler.update_instance_infos (s : DispatchScheduler)
    (instance_info : List (String × InstanceInfo)) : DispatchScheduler :=
  { s with instance_info := instance_info }

/-- The sort key `_sort_instance_infos` reads via `getattr`:
`num_waiting_requests` for `Queue`, `instance_load_dispatch_scale`
otherwise. -/
def sortKeyOf (policy : PolicyKind) (info : InstanceInfo) : Int :=
  if policy = PolicyKind.queue then (info.num_waiting_requests : Int)
  else info.instance_load_dispatch_scale

/-- Ascending-key comparison used to model `sorted(..., key=...)`. -/
def keyLE (policy : PolicyKind) (a b : InstanceInfo) : Prop :=
  sortKeyOf policy a ≤ sortKeyOf policy b

instance (policy : PolicyKind) : DecidableRel (keyLE policy) :=
  fun a b => inferInstanceAs (Decidable (sortKeyOf policy a ≤ sortKeyOf policy b))

instance (policy : PolicyKind) : IsTotal InstanceInfo (keyLE policy) :=
  ⟨fun a b => Int.le_total (sortKeyOf policy a) (sortKeyOf policy b)⟩

instance (policy : PolicyKind) : IsTrans InstanceInfo (keyLE policy) :=
  ⟨fun _ _ _ => Int.le_trans⟩

/-- The snapshot values whose `instance_id` is currently available — the
list `_sort_instance_infos` filters before sorting. -/
def eligibleInfos (s : DispatchScheduler) : List InstanceInfo :=
  (s.instance_info.map Prod.snd).filter
    (fun info => info.instance_id ∈ s.available_dispatch_instance_set)

/-- `DispatchScheduler._sort_instance_infos` as called from `dispatch`
(always with `descending=False`): stable ascending sort of the filtered
snapshot values (Python's `sorted` is stable, as is `insertionSort`). -/
def DispatchScheduler.sort_instance_infos (s : DispatchScheduler) : DispatchScheduler :=
  { s with sorted_instance_infos :=
      List.insertionSort (keyLE s.dispatch_policy) (eligibleInfos s) }

/-- Fold step for Python's `min(dict, key=dict.get)`: keep the first
entry with the least value. -/
def argminGo (best : String × Nat) : List (String × Nat) → String × Nat
  | [] => best
  | q :: t => if q.2 < best.2 then argminGo q t else argminGo best t

/-- Python's `min(instance_num_requests, key=instance_num_requests.get)`
(`Balanced.dispatch`); `none` when the dict is empty (the source raises
`ValueError`). -/
def argminKey (l : List (String × Nat)) : Option String :=
  match l with
  | [] => none
  | p :: t => some (argminGo p t).1

/-- Fold step for Python's `max(dict, key=dict.get)`: keep the first
entry with the greatest value. -/
def argmaxGo (best : String × Nat) : List (String × Nat) → String × Nat
  | [] => best
  | q :: t => if q.2 > best.2 then argmaxGo q t else argmaxGo best t

/-- Python's `max(instance_num_requests, key=instance_num_requests.get)`
(`Flood.dispatch`). -/
def argmaxKey (l : List (String × Nat)) : Option String :=
  match l with
  | [] => none
  | p :: t => some (argmaxGo p t).1

/-- Lexicographic order on char lists by code point — Python's string
comparison. -/
def charListLt : List Char → List Char → Bool
  | [], [] => false
  | [], _ :: _ => true
  | _ :: _, [] => false
  | a :: s, b :: t =>
    if a.toNat < b.toNat then true
    else if b.toNat < a.toNat then false
    else charListLt s t

/-- Python's `<` on strings. -/
def strLt (a b : String) : Bool :=
  charListLt a.data b.data

/-- Ascending lexicographic sort of strings, for
`sorted(instance_num_requests.keys())` in `RoundRobin.dispatch` (string
keys are distinct, so stability is irrelevant; insert before the first
element not below the new one). -/
def insertStr (x : String) : List String → List String
  | [] => [x]
  | y :: t => if strLt y x then y :: insertStr x t else x :: y :: t

/-- Sort a list of strings ascending. -/
def sortStrAsc : List String → List String
  | [] => []
  | x :: t => insertStr x (sortStrAsc t)

/-- `RoundRobin.dispatch`: lexicographically sort the counter keys,
advance the cursor by one modulo the key count, return the key there and
the new cursor.  `none` when there are no keys (the source divides by
`len(...) == 0`). -/
def roundRobinSelect (prev_instance_idx : Int)
    (instance_num_requests : List (String × Nat)) : Option (String × Int) :=
  let all_instance_ids := sortStrAsc (keysOf instance_num_requests)
  match all_instance_ids with
  | [] => none
  | _ :: _ =>
    let cur_instance_idx := (prev_instance_idx + 1) % (all_instance_ids.length : Int)
    -- 0 ≤ cur < length, so the default is never taken
    some (all_instance_ids.getD cur_instance_idx.toNat "", cur_instance_idx)

/-- The body of the active policy's `dispatch` method: the selected
instance id and the (possibly updated) round-robin cursor; `none` when
the policy body raises on an empty collection.  `Queue.dispatch` draws
uniformly at random among the minimal-queue entries; the model
deterministically takes the first. -/
def policySelect (s : DispatchScheduler) : Option (String × Int) :=
  match s.dispatch_policy with
  | PolicyKind.flood =>
      (argmaxKey s.instance_num_requests).map (fun id => (id, s.prev_instance_idx))
  | PolicyKind.balanced =>
      (argminKey s.instance_num_requests).map (fun id => (id, s.prev_instance_idx))
  | PolicyKind.load =>
      s.sorted_instance_infos.head?.map (fun info => (info.instance_id, s.prev_instance_idx))
  | PolicyKind.queue =>
      match s.sorted_instance_infos.head? with
      | none => none
      | some first =>
        let min_queue_size := first.num_waiting_requests
        let instance_id_list := (s.sorted_instance_infos.filter
            (fun info => info.num_waiting_requests = min_queue_size)).map
          (fun info => info.instance_id)
        instance_id_list.head?.map (fun id => (id, s.prev_instance_idx))
  | PolicyKind.rr => roundRobinSelect s.prev_instance_idx s.instance_num_requests

/-- `DispatchScheduler.dispatch`.  Increments `num_requests`, recomputes
the sorted view for the ranking policies, runs the policy body, then
increments the chosen id's counter (`KeyError` if absent).  The periodic
logging every 100th request has no effect on state and is omitted. -/
def DispatchScheduler.dispatch (s : DispatchScheduler) :
    Except SchedErr String × DispatchScheduler :=
  let s := { s with num_requests := s.num_requests + 1 }
  let s := if s.dispatch_policy = PolicyKind.load ∨ s.dispatch_policy = PolicyKind.queue
    then s.sort_instance_infos else s
  match policySelect s with
  | none => (Except.error SchedErr.noAvailableInstance, s)
  | some (dispatch_instance_id, ptr) =>
    let s := { s with prev_instance_idx := ptr }
    match lookupKey s.instance_num_requests dispatch_instance_id with
    | none => (Except.error SchedErr.keyError, s)
    | some n =>
        (Except.ok dispatch_instance_id,
          { s with instance_num_requests :=
              setKey s.instance_num_requests dispatch_instance_id (n + 1) })

/-- One external call to the scheduler. -/
inductive Op where
  | add (id : String)
  | remove (id : String)
  | dispatchReq
  | update (snapshot : List (String × InstanceInfo))
deriving DecidableEq, Repr

/-- Whether an operation is a membership operation
(`add_instance`/`remove_instance`). -/
def isMembershipOp : Op → Bool
  | Op.add _ => true
  | Op.remove _ => true
  | _ => false

/-- Execute one call. -/
def stepOp (s : DispatchScheduler) : Op → Option SchedErr × DispatchScheduler
  | Op.add id => (none, s.add_instance id)
  | Op.remove id => s.remove_instance id
  | Op.dispatchReq =>
    match s.dispatch with
    | (Except.ok _, s') => (none, s')
    | (Except.error e, s') => (some e, s')
  | Op.update snapshot => (none, s.update_instance_infos snapshot)

/-- Execute a sequence of calls, stopping at the first error (Python: an
uncaught exception propagates to the caller). -/
def runOps (s : DispatchScheduler) : List Op → Option SchedErr × DispatchScheduler
  | [] => (none, s)
  | op :: rest =>
    match stepOp s op with
    | (none, s') => runOps s' rest
    | (some e, s') => (some e, s')

/-- Iterate `dispatch` a given number of times, stopping at the first
error. -/
def dispatchN (s : DispatchScheduler) : Nat → Option SchedErr × DispatchScheduler
  | 0 => (none, s)
  | k + 1 =>
    match s.dispatch with
    | (Except.ok _, s') => dispatchN s' k
    | (Except.error e, s') => (some e, s')

/-- `GlobalSchedulerConfig` (`llumnix/internal_config.py`), fields in
source order of assignment.  Python float thresholds are modelled as
`Rat`; the only arithmetic the constructor performs on them is the exact
negation `x * (-1)`. -/
structure GlobalSchedulerConfig where
  initial_instances : Nat
  load_metric : String
  dispatch_policy : String
  pair_migration_policy : String
  migrate_out_load_threshold : Rat
  enable_defrag : Bool
  scaling_policy : String
  scale_up_threshold : Rat
  scale_down_threshold : Rat
  enable_pd_disagg : Bool
  num_dispatch_instances : Int
  migration_backend : String
deriving DecidableEq, Repr

/-- `GlobalSchedulerConfig.__init__`, arguments in source parameter
order. -/
def GlobalSchedulerConfig.init
    (initial_instances : Nat)
    (load_metric : String)
    (dispatch_policy : String)
    (num_dispatch_instances : Int)
    (pair_migration_policy : String)
    (migrate_out_threshold : Rat)
    (enable_defrag : Bool)
    (scaling_policy : String)
    (scale_up_threshold : Rat)
    (scale_down_threshold : Rat)
    (enable_pd_disagg : Bool)
    (migration_backend : String) : GlobalSchedulerConfig :=
  { initial_instances := initial_instances
    load_metric := load_metric
    dispatch_policy := dispatch_policy
    pair_migration_policy := pair_migration_policy
    migrate_out_load_threshold := migrate_out_threshold * (-1)
    enable_defrag := enable_defrag
    scaling_policy := scaling_policy
    scale_up_threshold := scale_up_threshold * (-1)
    scale_down_threshold := scale_down_threshold * (-1)
    enable_pd_disagg := enable_pd_disagg
    num_dispatch_instances := num_dispatch_instances
    migration_backend := migration_backend }

/-- Structural well-formedness the scheduler maintains on its membership
state: the two sets hold no duplicates, the available set is contained
in the registry, and — when a positive capacity is configured — the
available set is within capacity. -/
def GoodState (s : DispatchScheduler) : Prop :=
  s.instance_id_set.Nodup ∧
  s.available_dispatch_instance_set.Nodup ∧
  (∀ x ∈ s.available_dispatch_instance_set, x ∈ s.instance_id_set) ∧
  (0 < s.num_dispatch_instances →
    (s.available_dispatch_instance_set.length : Int) ≤ s.num_dispatch_instances)

/-- The counter map is balanced to within one request: every count
exceeds every other by at most 1 (that is, `max − min ≤ 1`). -/
def BalancedSpread (l : List (String × Nat)) : Prop :=
  ∀ p ∈ l, ∀ q ∈ l, p.2 ≤ q.2 + 1

/-! ## Theorems -/

/-- Claim C10: `GlobalSchedulerConfig.__init__` stores the migrate-out,
scale-up and scale-down thresholds negated, and stores every other
constructor argument unchanged. -/
theorem config_stores_thresholds_negated
    (initial_instances : Nat) (load_metric dispatch_policy : String)
    (num_dispatch_instances : Int) (pair_migration_policy : String)
    (migrate_out_threshold : Rat) (enable_defrag : Bool)
    (scaling_policy : String) (scale_up_threshold scale_down_threshold : Rat)
    (enable_pd_disagg : Bool) (migration_backend : String) :
    GlobalSchedulerConfig.init initial_instances load_metric dispatch_policy
      num_dispatch_instances pair_migration_policy migrate_out_threshold
      enable_defrag scaling_policy scale_up_threshold scale_down_threshold
      enable_pd_disagg migration_backend =
    { initial_instances := initial_instances
      load_metric := load_metric
      dispatch_policy := dispatch_policy
      pair_migration_policy := pair_migration_policy
      migrate_out_load_threshold := -migrate_out_threshold
      enable_defrag := enable_defrag
      scaling_policy := scaling_policy
      scale_up_threshold := -scale_up_threshold
      scale_down_threshold := -scale_down_threshold
      enable_pd_disagg := enable_pd_disagg
      num_dispatch_instances := num_dispatch_instances
      migration_backend := migration_backend } := by
  simp [GlobalSchedulerConfig.init, mul_neg_one]

/-- Claim C9: on a fresh scheduler with the RoundRobin policy and
unbounded capacity, after `add_instance` of "b", "a", "c" in that order,
four successive `dispatch` calls return "a", "b", "c", "a". -/
theorem roundrobin_deterministic_trace :
    (runOps (DispatchScheduler.init PolicyKind.rr 0)
        [Op.add "b", Op.add "a", Op.add "c"]).2.dispatch.1 = Except.ok "a" ∧
    (runOps (DispatchScheduler.init PolicyKind.rr 0)
        [Op.add "b", Op.add "a", Op.add "c"]).2.dispatch.2.dispatch.1 = Except.ok "b" ∧
    (runOps (DispatchScheduler.init PolicyKind.rr 0)
        [Op.add "b", Op.add "a", Op.add "c"]).2.dispatch.2.dispatch.2.dispatch.1 =
      Except.ok "c" ∧
    (runOps (DispatchScheduler.init PolicyKind.rr 0)
        [Op.add "b", Op.add "a", Op.add "c"]).2.dispatch.2.dispatch.2.dispatch.2.dispatch.1 =
      Except.ok "a" := by
  decide

/-- Claim C6: `remove_instance` on an id that is not a member of
`instance_id_set` fails with the instance-not-found error and returns
every component of the state exactly unchanged. -/
theorem remove_unknown_id_fails_unchanged (s : DispatchScheduler) (id : String)
    (h : id ∉ s.instance_id_set) :
    s.remove_instance id = (some SchedErr.instanceNotFound, s) := by
  unfold DispatchScheduler.remove_instance
  simp [h]

/-- Witness for C6 at a concrete state and id. -/
theorem remove_unknown_id_fails_unchanged_witness :
    ("z" ∉ (DispatchScheduler.init PolicyKind.balanced 0).instance_id_set) ∧
    (DispatchScheduler.init PolicyKind.balanced 0).remove_instance "z" =
      (some SchedErr.instanceNotFound, DispatchScheduler.init PolicyKind.balanced 0) :=
  ⟨by decide, remove_unknown_id_fails_unchanged _ "z" (by decide)⟩

/-- Claim C1 (code bug): the backfill step of `remove_instance` applies
no decode filter, so a decode-only id can become a member of
`available_dispatch_instance_set`.  With unbounded capacity, after
adding "decode_1" and "a" and then removing "a", the call succeeds and
"decode_1" is in the available set, contradicting decode exclusion. -/
theorem decode_id_backfilled_into_available :
    is_decode_only "decode_1" = true ∧
    (runOps (DispatchScheduler.init PolicyKind.balanced 0)
      [Op.add "decode_1", Op.add "a", Op.remove "a"]).1 = none ∧
    "decode_1" ∈ (runOps (DispatchScheduler.init PolicyKind.balanced 0)
      [Op.add "decode_1", Op.add "a", Op.remove "a"]).2.available_dispatch_instance_set := by
  decide

/-- Claim C3 (code bug): with unbounded capacity (`C ≤ 0`) the backfill
branch is still entered — `num_instances ≥ num_dispatch_instances`
always holds — and `next(iter(...))` on the empty candidate set raises
`StopIteration` instead of the removal completing successfully. -/
theorem remove_unbounded_raises_stopiteration :
    (runOps (DispatchScheduler.init PolicyKind.balanced 0)
      [Op.add "a", Op.remove "a"]).1 = some SchedErr.stopIteration := by
  decide

/-- Claim C5: in any state whose available set is empty (and whose
counter map, which the scheduler only ever populates with available
instances, is accordingly restricted to it), `dispatch` fails with the
no-available-instance error — for every one of the five policies. -/
theorem dispatch_empty_fails (s : DispatchScheduler)
    (hempty : s.available_dispatch_instance_set = [])
    (hsub : ∀ k ∈ keysOf s.instance_num_requests,
      k ∈ s.available_dispatch_instance_set) :
    (s.dispatch).1 = Except.error SchedErr.noAvailableInstance := by
  have hkeys : s.instance_num_requests = [] := by
    cases hl : s.instance_num_requests with
    | nil => rfl
    | cons p t =>
      exfalso
      have hp : p.1 ∈ keysOf s.instance_num_requests := by
        rw [hl]
        exact List.mem_map_of_mem _ (List.mem_cons_self ..)
      have := hsub p.1 hp
      rw [hempty] at this
      exact List.not_mem_nil _ this
  cases hpol : s.dispatch_policy <;>
    simp [DispatchScheduler.dispatch, hpol, policySelect, hkeys, hempty,
      DispatchScheduler.sort_instance_infos, eligibleInfos, argmaxKey,
      argminKey, roundRobinSelect, sortStrAsc, keysOf]

/-- Witness for C5 at a concrete empty state. -/
theorem dispatch_empty_fails_witness :
    ((DispatchScheduler.init PolicyKind.queue 0).dispatch).1 =
      Except.error SchedErr.noAvailableInstance :=
  dispatch_empty_fails _ (by decide) (by decide)

/-! ### List and association-list helper lemmas -/

theorem mem_listAdd {l : List String} {x y : String} :
    x ∈ listAdd l y ↔ x ∈ l ∨ x = y := by
  unfold listAdd
  by_cases h : y ∈ l
  · simp only [if_pos h]
    constructor
    · exact Or.inl
    · rintro (hx | rfl)
      · exact hx
      · exact h
  · simp [if_neg h]

theorem mem_listAdd_self (l : List String) (x : String) : x ∈ listAdd l x :=
  mem_listAdd.mpr (Or.inr rfl)

theorem nodup_listAdd {l : List String} (x : String) (h : l.Nodup) :
    (listAdd l x).Nodup := by
  unfold listAdd
  by_cases hx : x ∈ l
  · simpa [if_pos hx]
  · simp only [if_neg hx]
    simpa [List.nodup_append] using ⟨h, hx⟩

theorem length_listAdd_le (l : List String) (x : String) :
    (listAdd l x).length ≤ l.length + 1 := by
  unfold listAdd
  by_cases hx : x ∈ l
  · simp [if_pos hx]
  · simp [if_neg hx]

theorem mem_keysOf_eraseKey {l : List (String × Nat)} {k k' : String}
    (h : k' ∈ keysOf (eraseKey l k)) : k' ∈ keysOf l := by
  induction l with
  | nil => simpa [eraseKey] using h
  | cons p t ih =>
    by_cases hp : p.1 = k
    · simp only [eraseKey, if_pos hp, keysOf] at h
      simp only [keysOf, List.map_cons]
      exact List.mem_cons_of_mem _ h
    · simp only [eraseKey, if_neg hp, keysOf, List.map_cons, List.mem_cons] at h ⊢
      rcases h with h | h
      · exact Or.inl h
      · exact Or.inr (ih h)

theorem eraseKey_of_not_mem_keys {l : List (String × Nat)} {k : String}
    (h : k ∉ keysOf l) : eraseKey l k = l := by
  induction l with
  | nil => rfl
  | cons p t ih =>
    simp only [keysOf, List.map_cons, List.mem_cons, not_or] at h
    rw [eraseKey, if_neg (fun hpk => h.1 hpk.symm), ih h.2]

theorem lookup_isSome_of_mem_keys {l : List (String × Nat)} {k : String}
    (hk : k ∈ keysOf l) : ∃ v, lookupKey l k = some v := by
  induction l with
  | nil => simp [keysOf] at hk
  | cons p t ih =>
    by_cases hp : p.1 = k
    · exact ⟨p.2, by simp [lookupKey, hp]⟩
    · simp only [keysOf, List.map_cons, List.mem_cons] at hk
      rcases hk with hk | hk
      · exact absurd hk.symm hp
      · obtain ⟨v, hv⟩ := ih hk
        exact ⟨v, by simp [lookupKey, hp, hv]⟩

/-! ### Claim C2 -/

/-- Claim C2: when `remove_instance` backfills a replacement `f` into
the available set (`id` was registered and available, the
after-removal fleet size still meets the capacity bound, and `f` is the
candidate drawn from `all_instances − eligible_instances`), the call
succeeds, `f` becomes available but receives no counter entry, and the
counter map changes only by deleting the removed id's entry. -/
theorem remove_backfill_creates_no_counter (s : DispatchScheduler) (id f : String)
    (hnodup : s.instance_id_set.Nodup)
    (hkeys : ∀ k ∈ keysOf s.instance_num_requests,
      k ∈ s.available_dispatch_instance_set)
    (hmem : id ∈ s.instance_id_set)
    (havail : id ∈ s.available_dispatch_instance_set)
    (hcap : ((s.instance_id_set.erase id).length : Int) ≥ s.num_dispatch_instances)
    (hf : ((s.instance_id_set.erase id).filter
        (fun x => x ∉ s.available_dispatch_instance_set.erase id)).head? = some f) :
    (s.remove_instance id).1 = none ∧
    f ∈ (s.remove_instance id).2.available_dispatch_instance_set ∧
    f ∉ keysOf (s.remove_instance id).2.instance_num_requests ∧
    (s.remove_instance id).2.instance_num_requests =
      eraseKey s.instance_num_requests id := by
  have hfmem : f ∈ (s.instance_id_set.erase id).filter
      (fun x => x ∉ s.available_dispatch_instance_set.erase id) :=
    List.mem_of_mem_head? (by rw [hf]; exact rfl)
  have hfprop := List.mem_filter.mp hfmem
  have hfid : f ∈ s.instance_id_set.erase id := hfprop.1
  have hfnotavail' : f ∉ s.available_dispatch_instance_set.erase id := by
    simpa using hfprop.2
  have hfne : f ≠ id := by
    intro hfe
    exact hnodup.not_mem_erase (hfe ▸ hfid)
  have hfnotavail : f ∉ s.available_dispatch_instance_set := fun hfa =>
    hfnotavail' ((List.mem_erase_of_ne hfne).mpr hfa)
  have hfnotkey : f ∉ keysOf s.instance_num_requests := fun hfk =>
    hfnotavail (hkeys f hfk)
  have hrem : s.remove_instance id =
      (none, { s with
        instance_id_set := s.instance_id_set.erase id
        num_instances := (s.instance_id_set.erase id).length
        instance_num_requests := eraseKey s.instance_num_requests id
        available_dispatch_instance_set :=
          listAdd (s.available_dispatch_instance_set.erase id) f }) := by
    by_cases hk : id ∈ keysOf s.instance_num_requests
    · simp only [DispatchScheduler.remove_instance, if_pos hmem, if_pos hk, if_pos havail,
        if_pos hcap, hf]
    · simp only [DispatchScheduler.remove_instance, if_pos hmem, if_neg hk, if_pos havail,
        if_pos hcap, hf, eraseKey_of_not_mem_keys hk]
  rw [hrem]
  exact ⟨rfl, mem_listAdd_self _ f,
    fun hfk => hfnotkey (mem_keysOf_eraseKey hfk), rfl⟩

/-! ### Membership-state invariants (Claim C4) and witnesses -/

theorem goodState_init (policy : PolicyKind) (C : Int) :
    GoodState (DispatchScheduler.init policy C) :=
  ⟨List.nodup_nil, List.nodup_nil, fun x hx => absurd hx (List.not_mem_nil x),
    fun hC => by
      have h0 : ((DispatchScheduler.init policy C).available_dispatch_instance_set.length : Int) = 0 := rfl
      rw [h0]
      exact le_of_lt hC⟩

theorem goodState_add (s : DispatchScheduler) (id : String) (h : GoodState s) :
    GoodState (s.add_instance id) := by
  obtain ⟨hnd_id, hnd_av, hsub, hcap⟩ := h
  have hsub' : ∀ x ∈ s.available_dispatch_instance_set, x ∈ listAdd s.instance_id_set id :=
    fun x hx => mem_listAdd.mpr (Or.inl (hsub x hx))
  simp only [DispatchScheduler.add_instance]
  split
  · split
    · refine ⟨nodup_listAdd id hnd_id, nodup_listAdd id hnd_av, ?_, ?_⟩
      · intro x hx
        rcases mem_listAdd.mp hx with hx' | rfl
        · exact hsub' x hx'
        · exact mem_listAdd_self _ _
      · intro hC
        dsimp only at hC ⊢
        have hlen := length_listAdd_le s.available_dispatch_instance_set id
        next hcond =>
          rcases hcond with hle | ⟨hpos, hlt⟩ <;> omega
    · exact ⟨nodup_listAdd id hnd_id, hnd_av, hsub', hcap⟩
  · exact ⟨nodup_listAdd id hnd_id, hnd_av, hsub', hcap⟩

theorem goodState_remove (s : DispatchScheduler) (id : String) (h : GoodState s) :
    GoodState (s.remove_instance id).2 := by
  obtain ⟨hnd_id, hnd_av, hsub, hcap⟩ := h
  by_cases hmem : id ∈ s.instance_id_set
  · by_cases havail : id ∈ s.available_dispatch_instance_set
    · have hgood2 : ∀ cnts : List (String × Nat), GoodState { s with
          instance_id_set := s.instance_id_set.erase id
          num_instances := (s.instance_id_set.erase id).length
          instance_num_requests := cnts
          available_dispatch_instance_set :=
            s.available_dispatch_instance_set.erase id } := by
        intro cnts
        refine ⟨hnd_id.erase id, hnd_av.erase id, ?_, ?_⟩
        · intro x hx
          obtain ⟨hxne, hxmem⟩ := (List.Nodup.mem_erase_iff hnd_av).mp hx
          exact (List.mem_erase_of_ne hxne).mpr (hsub x hxmem)
        · intro hC
          dsimp only at hC ⊢
          have hlen2 := List.length_erase_add_one havail
          have := hcap hC
          omega
      by_cases hge : ((s.instance_id_set.erase id).length : Int) ≥ s.num_dispatch_instances
      · cases hhead : ((s.instance_id_set.erase id).filter
            (fun x => x ∉ s.available_dispatch_instance_set.erase id)).head? with
        | some free =>
          have hfree : free ∈ s.instance_id_set.erase id :=
            (List.mem_filter.mp (List.mem_of_mem_head? (by rw [hhead]; exact rfl))).1
          have hgood : ∀ cnts : List (String × Nat), GoodState { s with
              instance_id_set := s.instance_id_set.erase id
              num_instances := (s.instance_id_set.erase id).length
              instance_num_requests := cnts
              available_dispatch_instance_set :=
                listAdd (s.available_dispatch_instance_set.erase id) free } := by
            intro cnts
            refine ⟨hnd_id.erase id, nodup_listAdd free (hnd_av.erase id), ?_, ?_⟩
            · intro x hx
              rcases mem_listAdd.mp hx with hx' | rfl
              · obtain ⟨hxne, hxmem⟩ := (List.Nodup.mem_erase_iff hnd_av).mp hx'
                exact (List.mem_erase_of_ne hxne).mpr (hsub x hxmem)
              · exact hfree
            · intro hC
              dsimp only at hC ⊢
              have hlen1 := length_listAdd_le (s.available_dispatch_instance_set.erase id) free
              have hlen2 := List.length_erase_add_one havail
              have := hcap hC
              omega
          by_cases hk : id ∈ keysOf s.instance_num_requests
          · simp only [DispatchScheduler.remove_instance, if_pos hmem, if_pos hk,
              if_pos havail, if_pos hge, hhead]
            exact hgood _
          · simp only [DispatchScheduler.remove_instance, if_pos hmem, if_neg hk,
              if_pos havail, if_pos hge, hhead]
            exact hgood _
        | none =>
          by_cases hk : id ∈ keysOf s.instance_num_requests
          · simp only [DispatchScheduler.remove_instance, if_pos hmem, if_pos hk,
              if_pos havail, if_pos hge, hhead]
            exact hgood2 _
          · simp only [DispatchScheduler.remove_instance, if_pos hmem, if_neg hk,
              if_pos havail, if_pos hge, hhead]
            exact hgood2 _
      · by_cases hk : id ∈ keysOf s.instance_num_requests
        · simp only [DispatchScheduler.remove_instance, if_pos hmem, if_pos hk,
            if_pos havail, if_neg hge]
          exact hgood2 _
        · simp only [DispatchScheduler.remove_instance, if_pos hmem, if_neg hk,
            if_pos havail, if_neg hge]
          exact hgood2 _
    · have hgood3 : ∀ cnts : List (String × Nat), GoodState { s with
          instance_id_set := s.instance_id_set.erase id
          num_instances := (s.instance_id_set.erase id).length
          instance_num_requests := cnts } := by
        intro cnts
        refine ⟨hnd_id.erase id, hnd_av, ?_, hcap⟩
        intro x hx
        have hxne : x ≠ id := fun hxe => havail (hxe ▸ hx)
        exact (List.mem_erase_of_ne hxne).mpr (hsub x hx)
      by_cases hk : id ∈ keysOf s.instance_num_requests
      · simp only [DispatchScheduler.remove_instance, if_pos hmem, if_pos hk, if_neg havail]
        exact hgood3 _
      · simp only [DispatchScheduler.remove_instance, if_pos hmem, if_neg hk, if_neg havail]
        exact hgood3 _
  · simp only [DispatchScheduler.remove_instance, if_neg hmem]
    exact ⟨hnd_id, hnd_av, hsub, hcap⟩

theorem add_num_dispatch_preserved (s : DispatchScheduler) (id : String) :
    (s.add_instance id).num_dispatch_instances = s.num_dispatch_instances := by
  simp only [DispatchScheduler.add_instance]
  split
  · split <;> rfl
  · rfl

theorem remove_num_dispatch_preserved (s : DispatchScheduler) (id : String) :
    (s.remove_instance id).2.num_dispatch_instances = s.num_dispatch_instances := by
  by_cases hmem : id ∈ s.instance_id_set
  · by_cases hk : id ∈ keysOf s.instance_num_requests
    · simp only [DispatchScheduler.remove_instance, if_pos hmem, if_pos hk]
      split
      · split
        · split <;> rfl
        · rfl
      · rfl
    · simp only [DispatchScheduler.remove_instance, if_pos hmem, if_neg hk]
      split
      · split
        · split <;> rfl
        · rfl
      · rfl
  · simp only [DispatchScheduler.remove_instance, if_neg hmem]

theorem stepOp_num_dispatch_preserved (s : DispatchScheduler) (op : Op)
    (hop : isMembershipOp op = true) :
    (stepOp s op).2.num_dispatch_instances = s.num_dispatch_instances := by
  cases op with
  | add id => exact add_num_dispatch_preserved s id
  | remove id => exact remove_num_dispatch_preserved s id
  | dispatchReq => simp [isMembershipOp] at hop
  | update snapshot => simp [isMembershipOp] at hop

theorem goodState_stepOp (s : DispatchScheduler) (op : Op)
    (hop : isMembershipOp op = true) (h : GoodState s) :
    GoodState (stepOp s op).2 := by
  cases op with
  | add id => exact goodState_add s id h
  | remove id => exact goodState_remove s id h
  | dispatchReq => simp [isMembershipOp] at hop
  | update snapshot => simp [isMembershipOp] at hop

theorem goodState_runOps (s : DispatchScheduler) (ops : List Op)
    (hops : ∀ op ∈ ops, isMembershipOp op = true) (h : GoodState s) :
    GoodState (runOps s ops).2 ∧
    (runOps s ops).2.num_dispatch_instances = s.num_dispatch_instances := by
  induction ops generalizing s with
  | nil => exact ⟨h, rfl⟩
  | cons op rest ih =>
    have hop := hops op (List.mem_cons_self ..)
    have hstep := goodState_stepOp s op hop h
    have hnum := stepOp_num_dispatch_preserved s op hop
    have hrest : ∀ o ∈ rest, isMembershipOp o = true :=
      fun o ho => hops o (List.mem_cons_of_mem _ ho)
    rw [runOps]
    rcases hs : stepOp s op with ⟨e, s'⟩
    rw [hs] at hstep hnum
    cases e with
    | none =>
      obtain ⟨hg, hn⟩ := ih s' hrest hstep
      exact ⟨hg, hn.trans hnum⟩
    | some err => exact ⟨hstep, hnum⟩

/-- Claim C4: over any sequence of membership calls
(`add_instance`/`remove_instance`) from a fresh scheduler with capacity
`C > 0`, after every call the available set has at most `C` members and
is contained in the instance registry. -/
theorem capacity_and_subset_invariant (policy : PolicyKind) (C : Int) (hC : 0 < C)
    (ops : List Op) (hops : ∀ op ∈ ops, isMembershipOp op = true) :
    (((runOps (DispatchScheduler.init policy C) ops).2.available_dispatch_instance_set.length : Int)
        ≤ C) ∧
    ∀ x ∈ (runOps (DispatchScheduler.init policy C) ops).2.available_dispatch_instance_set,
      x ∈ (runOps (DispatchScheduler.init policy C) ops).2.instance_id_set := by
  obtain ⟨⟨-, -, hsub, hcap⟩, hnum⟩ :=
    goodState_runOps (DispatchScheduler.init policy C) ops hops (goodState_init policy C)
  have hinitC : (DispatchScheduler.init policy C).num_dispatch_instances = C := rfl
  rw [hinitC] at hnum
  refine ⟨?_, hsub⟩
  have := hcap (by rw [hnum]; exact hC)
  rw [hnum] at this
  exact this

/-- Witness for C4 on a concrete call sequence with capacity 2. -/
theorem capacity_and_subset_invariant_witness :
    ((((runOps (DispatchScheduler.init PolicyKind.balanced 2)
        [Op.add "a", Op.add "b", Op.add "c", Op.remove "a"]).2.available_dispatch_instance_set.length : Int)
        ≤ 2) ∧
    ∀ x ∈ (runOps (DispatchScheduler.init PolicyKind.balanced 2)
        [Op.add "a", Op.add "b", Op.add "c", Op.remove "a"]).2.available_dispatch_instance_set,
      x ∈ (runOps (DispatchScheduler.init PolicyKind.balanced 2)
        [Op.add "a", Op.add "b", Op.add "c", Op.remove "a"]).2.instance_id_set) :=
  capacity_and_subset_invariant PolicyKind.balanced 2 (by decide)
    [Op.add "a", Op.add "b", Op.add "c", Op.remove "a"] (by decide)

/-- Witness for C2: with capacity 1, after adding "a" (eligible) and
"b" (registered but not eligible), removing "a" backfills "b" with no
counter entry created for it. -/
theorem remove_backfill_creates_no_counter_witness :
    (((runOps (DispatchScheduler.init PolicyKind.balanced 1)
        [Op.add "a", Op.add "b"]).2.remove_instance "a").1 = none) ∧
    "b" ∈ ((runOps (DispatchScheduler.init PolicyKind.balanced 1)
        [Op.add "a", Op.add "b"]).2.remove_instance "a").2.available_dispatch_instance_set ∧
    "b" ∉ keysOf ((runOps (DispatchScheduler.init PolicyKind.balanced 1)
        [Op.add "a", Op.add "b"]).2.remove_instance "a").2.instance_num_requests ∧
    ((runOps (DispatchScheduler.init PolicyKind.balanced 1)
        [Op.add "a", Op.add "b"]).2.remove_instance "a").2.instance_num_requests =
      eraseKey (runOps (DispatchScheduler.init PolicyKind.balanced 1)
        [Op.add "a", Op.add "b"]).2.instance_num_requests "a" :=
  remove_backfill_creates_no_counter _ "a" "b" (by decide) (by decide) (by decide)
    (by decide) (by decide) (by decide)

/-! ### Balanced fairness (Claim C7) and Load selection (Claim C8) -/

theorem argminGo_eq_or_mem (best : String × Nat) (l : List (String × Nat)) :
    argminGo best l = best ∨ argminGo best l ∈ l := by
  induction l generalizing best with
  | nil => exact Or.inl rfl
  | cons q t ih =>
    rw [argminGo]
    by_cases h : q.2 < best.2
    · rw [if_pos h]
      rcases ih q with h' | h'
      · exact Or.inr (by rw [h']; exact List.mem_cons_self ..)
      · exact Or.inr (List.mem_cons_of_mem _ h')
    · rw [if_neg h]
      rcases ih best with h' | h'
      · exact Or.inl h'
      · exact Or.inr (List.mem_cons_of_mem _ h')

theorem argminGo_le_best (best : String × Nat) (l : List (String × Nat)) :
    (argminGo best l).2 ≤ best.2 := by
  induction l generalizing best with
  | nil => exact Nat.le_refl _
  | cons q t ih =>
    rw [argminGo]
    by_cases h : q.2 < best.2
    · rw [if_pos h]
      exact Nat.le_trans (ih q) (Nat.le_of_lt h)
    · rw [if_neg h]
      exact ih best

theorem argminGo_le_mem (best : String × Nat) (l : List (String × Nat)) :
    ∀ p ∈ l, (argminGo best l).2 ≤ p.2 := by
  induction l generalizing best with
  | nil => intro p hp; cases hp
  | cons q t ih =>
    intro p hp
    rw [argminGo]
    rcases List.mem_cons.mp hp with rfl | hp'
    · by_cases h : p.2 < best.2
      · rw [if_pos h]
        exact argminGo_le_best p t
      · rw [if_neg h]
        exact Nat.le_trans (argminGo_le_best best t) (Nat.le_of_not_lt h)
    · by_cases h : q.2 < best.2
      · rw [if_pos h]
        exact ih q p hp'
      · rw [if_neg h]
        exact ih best p hp'

theorem lookupKey_eq_of_mem_nodup {l : List (String × Nat)} {p : String × Nat}
    (hnd : (keysOf l).Nodup) (hp : p ∈ l) : lookupKey l p.1 = some p.2 := by
  induction l with
  | nil => cases hp
  | cons q t ih =>
    simp only [keysOf, List.map_cons, List.nodup_cons] at hnd
    rcases List.mem_cons.mp hp with rfl | hp'
    · rw [lookupKey, if_pos rfl]
    · have hq : q.1 ≠ p.1 := by
        intro he
        exact hnd.1 (he ▸ List.mem_map_of_mem Prod.fst hp')
      rw [lookupKey, if_neg hq]
      exact ih hnd.2 hp'

theorem keysOf_setKey_of_mem {l : List (String × Nat)} {k : String} (v : Nat)
    (hk : k ∈ keysOf l) : keysOf (setKey l k v) = keysOf l := by
  induction l with
  | nil => cases hk
  | cons p t ih =>
    by_cases hp : p.1 = k
    · rw [setKey, if_pos hp]
      simp [keysOf, hp]
    · rw [setKey, if_neg hp]
      have hk' : k ∈ keysOf t := by
        simp only [keysOf, List.map_cons, List.mem_cons] at hk
        rcases hk with hk | hk
        · exact absurd hk.symm hp
        · exact hk
      simp only [keysOf, List.map_cons]
      rw [show List.map Prod.fst (setKey t k v) = List.map Prod.fst t from ih hk']

theorem mem_setKey_of_nodup {l : List (String × Nat)} {k : String} {v : Nat}
    {q : String × Nat} (hnd : (keysOf l).Nodup) (hq : q ∈ setKey l k v) :
    q = (k, v) ∨ (q ∈ l ∧ q.1 ≠ k) := by
  induction l with
  | nil =>
    rw [setKey] at hq
    exact Or.inl (List.mem_singleton.mp hq)
  | cons p t ih =>
    simp only [keysOf, List.map_cons, List.nodup_cons] at hnd
    by_cases hp : p.1 = k
    · rw [setKey, if_pos hp] at hq
      rcases List.mem_cons.mp hq with rfl | hq'
      · exact Or.inl rfl
      · refine Or.inr ⟨List.mem_cons_of_mem _ hq', ?_⟩
        intro hqk
        exact hnd.1 (hp ▸ hqk ▸ List.mem_map_of_mem Prod.fst hq')
    · rw [setKey, if_neg hp] at hq
      rcases List.mem_cons.mp hq with rfl | hq'
      · exact Or.inr ⟨List.mem_cons_self .., hp⟩
      · rcases ih hnd.2 hq' with h | ⟨hql, hqk⟩
        · exact Or.inl h
        · exact Or.inr ⟨List.mem_cons_of_mem _ hql, hqk⟩

theorem balancedSpread_setKey {l : List (String × Nat)} {r : String × Nat}
    (hnd : (keysOf l).Nodup) (hr : r ∈ l) (hmin : ∀ q ∈ l, r.2 ≤ q.2)
    (hsp : BalancedSpread l) : BalancedSpread (setKey l r.1 (r.2 + 1)) := by
  intro p hp q hq
  rcases mem_setKey_of_nodup hnd hp with rfl | ⟨hpl, hpk⟩ <;>
    rcases mem_setKey_of_nodup hnd hq with h2 | ⟨hql, hqk⟩
  · rw [h2]
    exact Nat.le_succ _
  · exact Nat.succ_le_succ (hmin q hql)
  · simp only [h2]
    exact Nat.le_trans (hsp p hpl r hr) (Nat.le_succ _)
  · exact hsp p hpl q hql

theorem balanced_dispatch_step (s : DispatchScheduler)
    (hpol : s.dispatch_policy = PolicyKind.balanced)
    (hne : s.instance_num_requests ≠ [])
    (hnd : (keysOf s.instance_num_requests).Nodup) :
    ∃ r : String × Nat, r ∈ s.instance_num_requests ∧
      (∀ q ∈ s.instance_num_requests, r.2 ≤ q.2) ∧
      s.dispatch = (Except.ok r.1,
        { s with num_requests := s.num_requests + 1
                 instance_num_requests :=
                   setKey s.instance_num_requests r.1 (r.2 + 1) }) := by
  obtain ⟨pol, ni, iset, aset, ndi, info, sorted, nreq, counts, ptr⟩ := s
  subst hpol
  dsimp only at hne hnd ⊢
  cases counts with
  | nil => exact absurd rfl hne
  | cons p t =>
    refine ⟨argminGo p t, ?_, ?_, ?_⟩
    · rcases argminGo_eq_or_mem p t with h | h
      · rw [h]; exact List.mem_cons_self ..
      · exact List.mem_cons_of_mem _ h
    · intro q hq
      rcases List.mem_cons.mp hq with heq | hq'
      · rw [heq]
        exact argminGo_le_best p t
      · exact argminGo_le_mem p t q hq'
    · have hlook : lookupKey (p :: t) (argminGo p t).1 = some (argminGo p t).2 := by
        apply lookupKey_eq_of_mem_nodup hnd
        rcases argminGo_eq_or_mem p t with h | h
        · rw [h]; exact List.mem_cons_self ..
        · exact List.mem_cons_of_mem _ h
      simp only [DispatchScheduler.dispatch, policySelect,
        if_neg (show ¬(PolicyKind.balanced = PolicyKind.load ∨
          PolicyKind.balanced = PolicyKind.queue) from by decide),
        argminKey, Option.map_some', hlook]

theorem balanced_dispatchN_spread (K : Nat) :
    ∀ s : DispatchScheduler, s.dispatch_policy = PolicyKind.balanced →
      s.instance_num_requests ≠ [] →
      (keysOf s.instance_num_requests).Nodup →
      BalancedSpread s.instance_num_requests →
      (dispatchN s K).1 = none ∧
        BalancedSpread (dispatchN s K).2.instance_num_requests := by
  induction K with
  | zero => exact fun s _ _ _ hsp => ⟨rfl, hsp⟩
  | succ k ih =>
    intro s hpol hne hnd hsp
    obtain ⟨r, hr, hmin, heqd⟩ := balanced_dispatch_step s hpol hne hnd
    have hrk : r.1 ∈ keysOf s.instance_num_requests :=
      List.mem_map_of_mem Prod.fst hr
    have hkeys : keysOf (setKey s.instance_num_requests r.1 (r.2 + 1)) =
        keysOf s.instance_num_requests := keysOf_setKey_of_mem (r.2 + 1) hrk
    have hne' : setKey s.instance_num_requests r.1 (r.2 + 1) ≠ [] := by
      intro h0
      apply hne
      rw [h0] at hkeys
      exact List.map_eq_nil.mp hkeys.symm
    have hnd' : (keysOf (setKey s.instance_num_requests r.1 (r.2 + 1))).Nodup := by
      rw [hkeys]
      exact hnd
    have hsp' := balancedSpread_setKey hnd hr hmin hsp
    rw [dispatchN, heqd]
    exact ih _ hpol hne' hnd' hsp'

/-- Claim C7: under the Balanced policy, starting from counters with at
least one entry and all values equal, any number `K` of dispatch calls
all succeed and leave the counters within a spread of one
(`max − min ≤ 1`). -/
theorem balanced_fairness (s : DispatchScheduler)
    (hpol : s.dispatch_policy = PolicyKind.balanced)
    (hne : s.instance_num_requests ≠ [])
    (hnd : (keysOf s.instance_num_requests).Nodup)
    (heq : ∀ p ∈ s.instance_num_requests, ∀ q ∈ s.instance_num_requests,
      p.2 = q.2)
    (K : Nat) :
    (dispatchN s K).1 = none ∧
    BalancedSpread (dispatchN s K).2.instance_num_requests :=
  balanced_dispatchN_spread K s hpol hne hnd
    (fun p hp q hq => by rw [heq p hp q hq]; exact Nat.le_succ _)

/-- Witness for C7 at a concrete two-instance state and three dispatches. -/
theorem balanced_fairness_witness :
    (dispatchN ((runOps (DispatchScheduler.init PolicyKind.balanced 0)
        [Op.add "a", Op.add "b"]).2) 3).1 = none ∧
    BalancedSpread (dispatchN ((runOps (DispatchScheduler.init PolicyKind.balanced 0)
        [Op.add "a", Op.add "b"]).2) 3).2.instance_num_requests :=
  balanced_fairness _ rfl (by decide) (by decide) (by decide) 3

theorem insertionSort_head_spec {policy : PolicyKind} {l : List InstanceInfo}
    {hh : InstanceInfo} {tt : List InstanceInfo}
    (hs : List.insertionSort (keyLE policy) l = hh :: tt) :
    hh ∈ l ∧ ∀ q ∈ l, keyLE policy hh q := by
  have hsorted := List.sorted_insertionSort (keyLE policy) l
  rw [hs] at hsorted
  have hmem : hh ∈ l := by
    rw [← List.mem_insertionSort (r := keyLE policy) (l := l), hs]
    exact List.mem_cons_self ..
  refine ⟨hmem, fun q hq => ?_⟩
  have hq' : q ∈ hh :: tt := by
    rw [← hs]
    exact (List.mem_insertionSort (r := keyLE policy)).mpr hq
  rcases List.mem_cons.mp hq' with heq | hq''
  · rw [heq]
    exact le_refl _
  · exact List.rel_of_sorted_cons hsorted q hq''

theorem eligibleInfos_ne_nil {s : DispatchScheduler}
    (hne : s.available_dispatch_instance_set ≠ [])
    (hcover : ∀ id ∈ s.available_dispatch_instance_set,
      ∃ info ∈ s.instance_info.map Prod.snd, info.instance_id = id) :
    eligibleInfos s ≠ [] := by
  obtain ⟨id, hid⟩ := List.exists_mem_of_ne_nil _ hne
  obtain ⟨info, hinfo, hiid⟩ := hcover id hid
  intro h0
  have hmem : info ∈ eligibleInfos s :=
    List.mem_filter.mpr ⟨hinfo, by simpa [hiid] using hid⟩
  rw [h0] at hmem
  exact List.not_mem_nil _ hmem

/-- Claim C8 (amended): under the Load policy, if the available set is
non-empty, every available id has a snapshot entry, the eligible
entries' load scores are pairwise distinct, and every eligible entry has
a counter entry (true except for backfilled instances — see C2/C8's
counterexample), then `dispatch` returns the instance id whose load
score is strictly minimal among the eligible snapshot entries. -/
theorem load_dispatch_selects_min (s : DispatchScheduler)
    (hpol : s.dispatch_policy = PolicyKind.load)
    (hne : s.available_dispatch_instance_set ≠ [])
    (hcover : ∀ id ∈ s.available_dispatch_instance_set,
      ∃ info ∈ s.instance_info.map Prod.snd, info.instance_id = id)
    (hdist : ∀ p ∈ eligibleInfos s, ∀ q ∈ eligibleInfos s, p ≠ q →
      p.instance_load_dispatch_scale ≠ q.instance_load_dispatch_scale)
    (hcnt : ∀ info ∈ eligibleInfos s,
      info.instance_id ∈ keysOf s.instance_num_requests) :
    ∃ info, info ∈ eligibleInfos s ∧
      (s.dispatch).1 = Except.ok info.instance_id ∧
      ∀ q ∈ eligibleInfos s, q ≠ info →
        info.instance_load_dispatch_scale < q.instance_load_dispatch_scale := by
  have hvne := eligibleInfos_ne_nil hne hcover
  cases hsort : List.insertionSort (keyLE PolicyKind.load) (eligibleInfos s) with
  | nil =>
    exfalso
    have hl := List.length_insertionSort (keyLE PolicyKind.load) (eligibleInfos s)
    rw [hsort] at hl
    exact hvne (List.length_eq_zero.mp hl.symm)
  | cons hh tt =>
    obtain ⟨hhmem, hhmin⟩ := insertionSort_head_spec hsort
    obtain ⟨v, hv⟩ := lookup_isSome_of_mem_keys (hcnt hh hhmem)
    refine ⟨hh, hhmem, ?_, ?_⟩
    · obtain ⟨pol, ni, iset, aset, ndi, info, sorted, nreq, counts, ptr⟩ := s
      dsimp only at hpol
      subst hpol
      dsimp only [eligibleInfos] at hsort
      dsimp only at hv
      simp only [DispatchScheduler.dispatch, DispatchScheduler.sort_instance_infos,
        policySelect, eligibleInfos, hsort, true_or, if_true, List.head?,
        Option.map_some', hv]
    · intro q hq hqne
      exact lt_of_le_of_ne (hhmin q hq)
        (hdist hh hhmem q hq (fun he => hqne he.symm))

/-- Counterexample for C8 as stated: with capacity 1, "b" is backfilled
into the available set by the removal of "a" and so has no counter
entry; with a snapshot covering "b", dispatch under Load selects "b" but
then fails with a `KeyError` on the counter increment instead of
returning it. -/
theorem load_dispatch_missing_counter_counterexample :
    (runOps (DispatchScheduler.init PolicyKind.load 1)
        [Op.add "a", Op.add "b", Op.remove "a",
         Op.update [("b", InstanceInfo.mk "b" 0 5)]]).2.available_dispatch_instance_set
      = ["b"] ∧
    eligibleInfos (runOps (DispatchScheduler.init PolicyKind.load 1)
        [Op.add "a", Op.add "b", Op.remove "a",
         Op.update [("b", InstanceInfo.mk "b" 0 5)]]).2
      = [InstanceInfo.mk "b" 0 5] ∧
    ((runOps (DispatchScheduler.init PolicyKind.load 1)
        [Op.add "a", Op.add "b", Op.remove "a",
         Op.update [("b", InstanceInfo.mk "b" 0 5)]]).2.dispatch).1
      = Except.error SchedErr.keyError := by
  decide

/-- Witness for the amended C8 at a concrete two-instance state where
"b" has the strictly smaller load score. -/
theorem load_dispatch_selects_min_witness :
    ∃ info, info ∈ eligibleInfos (runOps (DispatchScheduler.init PolicyKind.load 0)
        [Op.add "a", Op.add "b",
         Op.update [("a", InstanceInfo.mk "a" 0 5), ("b", InstanceInfo.mk "b" 0 3)]]).2 ∧
      (((runOps (DispatchScheduler.init PolicyKind.load 0)
        [Op.add "a", Op.add "b",
         Op.update [("a", InstanceInfo.mk "a" 0 5), ("b", InstanceInfo.mk "b" 0 3)]]).2.dispatch).1
        = Except.ok info.instance_id) ∧
      ∀ q ∈ eligibleInfos (runOps (DispatchScheduler.init PolicyKind.load 0)
        [Op.add "a", Op.add "b",
         Op.update [("a", InstanceInfo.mk "a" 0 5), ("b", InstanceInfo.mk "b" 0 3)]]).2,
        q ≠ info →
        info.instance_load_dispatch_scale < q.instance_load_dispatch_scale :=
  load_dispatch_selects_min _ rfl (by decide) (by decide) (by decide) (by decide)
